import Mathlib

/-!
# Verification of the manus-content-pipeline research aggregation engine

Shallow embedding of the research aggregation engine
(`manus_research_integrated.py`), the direct research module's result
structuring (`manus_direct_research.py`), and the failure-handling path of
the queue processor (`manus_automation.py`), together with proofs of the
specified properties.

Conventions of the embedding:
* Python dict-based "case" records become the structure `Case`; an absent or
  falsy string field is the empty string, an absent `key_points` is `[]`
  (the source reads every field with `.get(key, default)` and tests
  truthiness, so `""`/`[]`/absent are indistinguishable to it).
* Python floats become `ℚ` (every constant in the scoring code is an exact
  decimal).
* The external search capability (`search_web`, a network call) becomes an
  explicit function parameter; the aggregation entry point additionally
  returns the list of queries it passes to that capability, so that
  "the search capability is never invoked" is expressible.
* Wall-clock timestamps in result metadata are omitted (pure embedding).
-/

namespace ManusResearchIntegrated

/-- A case / candidate finding record, as the dicts built in
`manus_research_integrated.py` (`search_web`, `enrich_case_details`).
Missing fields are represented by `""` / `[]` / `0`. -/
structure Case where
  title : String
  description : String
  source : String
  date : String
  key_points : List String
  quality_score : ℚ
deriving DecidableEq

/-- Python's `str.strip()` (no argument): remove leading and trailing
whitespace.  (`Char.isWhitespace` covers space, tab, newline, carriage
return — the whitespace that can occur in the pipeline's ASCII inputs.) -/
def pyStrip (s : String) : String :=
  String.mk (((s.data.dropWhile Char.isWhitespace).reverse.dropWhile
    Char.isWhitespace).reverse)

/-- Sentence-terminal punctuation of `re.split(r'[.!?]+', text)`. -/
def isSentenceEnd (c : Char) : Bool :=
  c = '.' || c = '!' || c = '?'

/-- Split a character list at every sentence-end character.
`re.split(r'[.!?]+', ...)` collapses *runs* of delimiters; splitting at
every delimiter instead only adds empty fragments between consecutive
delimiters, and every such fragment is removed by the `20 < len` filter of
`extract_key_points_from_text`, so the extracted key points coincide. -/
def splitSentences : List Char → List (List Char)
  | [] => [[]]
  | c :: rest =>
    let r := splitSentences rest
    if isSentenceEnd c then [] :: r
    else
      match r with
      | [] => [[c]]
      | f :: fs => (c :: f) :: fs

/-- `extract_key_points_from_text`: split the text on sentence-end
punctuation (`re.split(r'[.!?]+', text)`), strip each fragment, keep those of
length strictly between 20 and 200, up to `max_points` of them (the loop's
append-then-break at `max_points` is `List.take max_points`). -/
def extract_key_points_from_text (text : String) (max_points : Nat) : List String :=
  if text = "" then []
  else
    let sentences := (splitSentences text.data).map String.mk
    ((sentences.map pyStrip).filter
      (fun s => 20 < s.length ∧ s.length < 200)).take max_points

/-- `calculate_case_quality_score`: structural-completeness score, the sum
of the five `score +=` contributions in source order (a contribution is 0
when its field is missing, i.e. empty). -/
def calculate_case_quality_score (case : Case) : ℚ :=
  (if case.title ≠ "" then 1.0 else 0) +
  (if case.description ≠ "" then
      1.0 + min ((case.description.length : ℚ) / 500) 2.0
    else 0) +
  (if case.source ≠ "" then 1.0 else 0) +
  (if case.date ≠ "" then 0.5 else 0) +
  (if case.key_points ≠ [] then
      min ((case.key_points.length : ℚ) * 0.3) 1.5
    else 0)

/-- `enrich_case_details`: default every missing field, then derive
`key_points` (note the source tests `enriched.get('description')` *after*
the description default has been applied, so the `['Details from source']`
branch requires the defaulted description to be empty), then recompute the
quality score on the defaulted record. -/
def enrich_case_details (case : Case) : Case :=
  let title := if case.title = "" then "Untitled Case" else case.title
  let description :=
    if case.description = "" then "No description available" else case.description
  let source := if case.source = "" then "Source not available" else case.source
  let date := if case.date = "" then "Recent" else case.date
  let key_points :=
    if case.key_points = [] then
      if description ≠ "" then extract_key_points_from_text description 5
      else ["Details from source"]
    else case.key_points
  let enriched : Case :=
    { title := title, description := description, source := source,
      date := date, key_points := key_points,
      quality_score := case.quality_score }
  { enriched with quality_score := calculate_case_quality_score enriched }

/-- The normalized-title key of `deduplicate_cases`:
`re.sub(r'[^a-z0-9]+', '', title.lower())`. -/
def titleKey (title : String) : String :=
  String.mk ((title.data.map Char.toLower).filter
    (fun c => ('a' ≤ c ∧ c ≤ 'z') ∨ ('0' ≤ c ∧ c ≤ '9')))

/-- The loop of `deduplicate_cases`, with the two seen-sets explicit.
A case is kept iff its title key is non-empty, unseen, and its URL is not in
`seen_urls`; only non-empty URLs are ever added to `seen_urls`. -/
def dedupeAux (seen_titles seen_urls : List String) : List Case → List Case
  | [] => []
  | case :: rest =>
    let tk := titleKey case.title
    let url := case.source
    if tk ≠ "" ∧ tk ∉ seen_titles ∧ url ∉ seen_urls then
      case :: dedupeAux (tk :: seen_titles)
        (if url ≠ "" then url :: seen_urls else seen_urls) rest
    else
      dedupeAux seen_titles seen_urls rest

/-- `deduplicate_cases`: greedy single pass with empty seen-sets. -/
def deduplicate_cases (cases : List Case) : List Case :=
  dedupeAux [] [] cases

/-- The order `rank_and_select_cases` sorts by: `scored_cases.sort` with
`reverse=True` is a stable descending sort on the score, i.e. on
index-tagged cases: strictly greater score first, equal scores in original
index order. -/
def rankBefore (x y : Nat × Case) : Prop :=
  calculate_case_quality_score y.2 < calculate_case_quality_score x.2 ∨
    (calculate_case_quality_score x.2 = calculate_case_quality_score y.2 ∧
      x.1 ≤ y.1)

instance : DecidableRel rankBefore := fun x y => by
  unfold rankBefore; exact inferInstance

instance : IsTotal (Nat × Case) rankBefore where
  total x y := by
    unfold rankBefore
    rcases lt_trichotomy (calculate_case_quality_score x.2)
        (calculate_case_quality_score y.2) with h | h | h
    · exact Or.inr (Or.inl h)
    · rcases Nat.le_total x.1 y.1 with hn | hn
      · exact Or.inl (Or.inr ⟨h, hn⟩)
      · exact Or.inr (Or.inr ⟨h.symm, hn⟩)
    · exact Or.inl (Or.inl h)

instance : IsTrans (Nat × Case) rankBefore where
  trans x y z := by
    unfold rankBefore
    rintro (h1 | ⟨h1, h1i⟩) (h2 | ⟨h2, h2i⟩)
    · exact Or.inl (by linarith)
    · exact Or.inl (by linarith)
    · exact Or.inl (by linarith)
    · exact Or.inr ⟨by linarith, h1i.trans h2i⟩

/-- The sorted, index-tagged intermediate list of `rank_and_select_cases`
(`scored_cases` after the stable descending sort). -/
def rankedIndexed (cases : List Case) : List (Nat × Case) :=
  List.insertionSort rankBefore cases.enum

/-- `rank_and_select_cases`: stable-sort descending by score, take the top
`max_results`. -/
def rank_and_select_cases (cases : List Case) (max_results : Nat) : List Case :=
  ((rankedIndexed cases).map Prod.snd).take max_results

/-- `generate_search_queries`. -/
def generate_search_queries (instruction : String) (category : String) :
    List String :=
  let queries :=
    if pyStrip instruction ≠ "" then
      [instruction] ++
        (if category ≠ "" then [category ++ " " ++ instruction] else []) ++
        [instruction ++ " examples", "recent " ++ instruction]
    else []
  queries.filter (fun q => pyStrip q ≠ "")

/-- Research result structure (`results` dict of
`perform_comprehensive_research`); metadata timestamps omitted. -/
structure ResearchResult where
  cases : List Case
  total_cases : Nat
  research_query : String
  category : String
deriving DecidableEq

/-- `perform_comprehensive_research`, parameterized by the external search
capability (`search_web` with its per-query limit).  Returns the result
together with the list of queries actually handed to the search capability.
The emptiness test `not instruction_text or not instruction_text.strip()`
is `pyStrip instruction_text = ""` (an empty string strips to itself). -/
def perform_comprehensive_research (search : String → Nat → List Case)
    (instruction_text : String) (max_results : Nat)
    (_date_range : String) (category : String) :
    ResearchResult × List String :=
  if pyStrip instruction_text = "" then
    ({ cases := [], total_cases := 0, research_query := instruction_text,
       category := category }, [])
  else
    let search_queries := generate_search_queries instruction_text category
    let issued := search_queries.take 2
    let all_findings := issued.flatMap (fun q => search q 5)
    let unique_cases := deduplicate_cases all_findings
    let top_cases := rank_and_select_cases unique_cases max_results
    let enriched_cases := top_cases.map enrich_case_details
    ({ cases := enriched_cases, total_cases := enriched_cases.length,
       research_query := instruction_text, category := category }, issued)

end ManusResearchIntegrated

namespace ManusDirectResearch

open ManusResearchIntegrated (Case ResearchResult)

/-- The result structuring of `ManusDirectResearch._parse_research_results`
(success branch, `manus_direct_research.py` lines 188–197), as a function of
the case list recovered from the AI parsing call (an external capability, so
an explicit argument here): `cases` is the parsed list truncated to
`max_results`, while `total_cases` is the length of the *untruncated* parsed
list. -/
def parse_research_results (parsed_cases : List Case)
    (instruction : String) (category : String) (max_results : Nat) :
    ResearchResult :=
  { cases := parsed_cases.take max_results,
    total_cases := parsed_cases.length,
    research_query := instruction,
    category := category }

/-- The direct module's `perform_comprehensive_research` entry point:
delegates to the external AI research and parsing capabilities and structures
the outcome with `_parse_research_results`; the parsed case list stands for
whatever those capabilities produced. -/
def perform_comprehensive_research (parsed_cases : List Case)
    (instruction_text : String) (max_results : Nat)
    (_date_range : String) (category : String) : ResearchResult :=
  parse_research_results parsed_cases instruction_text category max_results

end ManusDirectResearch

namespace ManusAutomation

/-- Retry limit (`MAX_RETRIES` in `manus_automation.py` / `config.py`). -/
def MAX_RETRIES : Nat := 3

/-- The tracking-sheet fields touched by the failure path, with status kept
as the string the code writes. -/
structure QueueRecord where
  status : String
  retry_count : Nat
  error_message : String
deriving DecidableEq

/-- The error handler of `process_instruction_file`
(`manus_automation.py` lines 549–586), as the update it applies to the
instruction's tracking record.  Faithful to the source: the current retry
count is **not** read from the sheet — the code sets
`retry_count = 0  # Placeholder` — so the branch compares `0 < MAX_RETRIES`
and the write always stores `retry_count = 0 + 1`. -/
def failAttemptUpdate (error : String) (record : QueueRecord) : QueueRecord :=
  let retry_count : Nat := 0
  let status := if retry_count < MAX_RETRIES then "Pending" else "Failed"
  { record with
      status := status,
      error_message := error.take 500,
      retry_count := retry_count + 1 }

/-- A fresh queue record: pending, never retried. -/
def freshRecord : QueueRecord :=
  { status := "Pending", retry_count := 0, error_message := "" }

/-- What the queue-state-machine specification intends `failAttempt` to do
(spec §4.8): read the current `retryCount`; if `retryCount + 1 < maxRetries`
re-queue as `Pending`, else mark `Failed`; in both branches increment
`retryCount`.  Used only to compare the source against the spec. -/
def failAttemptSpec (error : String) (record : QueueRecord) : QueueRecord :=
  let status :=
    if record.retry_count + 1 < MAX_RETRIES then "Pending" else "Failed"
  { record with
      status := status,
      error_message := error.take 500,
      retry_count := record.retry_count + 1 }

end ManusAutomation

/-- Case literal with the two fields the scenarios vary (all other fields
missing, i.e. defaulted to `""` / `[]` / `0`). -/
def mkCase (title source : String) : ManusResearchIntegrated.Case :=
  { title := title, description := "", source := source, date := "",
    key_points := [], quality_score := 0 }

/-- Case literal with title and description only. -/
def mkCaseTD (title description : String) : ManusResearchIntegrated.Case :=
  { title := title, description := description, source := "", date := "",
    key_points := [], quality_score := 0 }

open ManusResearchIntegrated ManusAutomation

/-- Unfolding lemma: the title of an enriched case. -/
theorem enrich_title_eq (c : Case) :
    (enrich_case_details c).title =
      if c.title = "" then "Untitled Case" else c.title := rfl

/-- Unfolding lemma: the description of an enriched case. -/
theorem enrich_description_eq (c : Case) :
    (enrich_case_details c).description =
      if c.description = "" then "No description available"
      else c.description := rfl

/-- Unfolding lemma: the source of an enriched case. -/
theorem enrich_source_eq (c : Case) :
    (enrich_case_details c).source =
      if c.source = "" then "Source not available" else c.source := rfl

/-- Unfolding lemma: the date of an enriched case. -/
theorem enrich_date_eq (c : Case) :
    (enrich_case_details c).date =
      if c.date = "" then "Recent" else c.date := rfl

/-- Unfolding lemma: the key points of an enriched case. -/
theorem enrich_key_points_eq (c : Case) :
    (enrich_case_details c).key_points =
      if c.key_points = [] then
        if (if c.description = "" then "No description available"
            else c.description) ≠ "" then
          extract_key_points_from_text
            (if c.description = "" then "No description available"
             else c.description) 5
        else ["Details from source"]
      else c.key_points := rfl

/-- Unfolding lemma: the quality score of an enriched case is the score of
the record after defaulting. -/
theorem enrich_quality_score_eq (c : Case) :
    (enrich_case_details c).quality_score =
      calculate_case_quality_score
        { title := if c.title = "" then "Untitled Case" else c.title,
          description := if c.description = "" then "No description available"
            else c.description,
          source := if c.source = "" then "Source not available" else c.source,
          date := if c.date = "" then "Recent" else c.date,
          key_points := (enrich_case_details c).key_points,
          quality_score := c.quality_score } := rfl

/-- Evaluation of the quality score on a structurally complete record. -/
theorem calculate_score_of_complete (t d s dt : String) (kp : List String)
    (q : ℚ) (ht : t ≠ "") (hd : d ≠ "") (hs : s ≠ "") (hdt : dt ≠ "")
    (hkp : kp ≠ []) :
    calculate_case_quality_score ⟨t, d, s, dt, kp, q⟩ =
      1.0 + (1.0 + min ((d.length : ℚ) / 500) 2.0) + 1.0 + 0.5 +
        min ((kp.length : ℚ) * 0.3) 1.5 := by
  unfold calculate_case_quality_score
  rw [if_pos ht, if_pos hd, if_pos hs, if_pos hdt, if_pos hkp]

/-- C2 (counterexample): on the Candidate Finding holding only
`title = "X"`, `enrich_case_details` does **not** return the Case the spec
scenario describes: the defaulted description `"No description available"`
is non-empty when the key-point branch tests it, so the
`["Details from source"]` placeholder branch is dead and the quality score
also reflects the defaulted fields (it is 3.848, not 2.0). -/
theorem enrich_case_details_title_only_spec_mismatch :
    enrich_case_details (mkCase "X" "") ≠
      { title := "X", description := "No description available",
        source := "Source not available", date := "Recent",
        key_points := ["Details from source"], quality_score := 2.0 } := by
  decide

/-- C2 (amended): on the Candidate Finding holding only `title = "X"`,
`enrich_case_details` returns title `"X"`, description
`"No description available"`, source `"Source not available"`, date
`"Recent"`, key points `["No description available"]` (extracted from the
defaulted description, whose stripped length 24 lies strictly between 20 and
200), and quality score `3.848 = 1 + (1 + 24/500) + 1 + 0.5 + 0.3`. -/
theorem enrich_case_details_title_only_output :
    (enrich_case_details (mkCase "X" "")).title = "X" ∧
    (enrich_case_details (mkCase "X" "")).description =
      "No description available" ∧
    (enrich_case_details (mkCase "X" "")).source = "Source not available" ∧
    (enrich_case_details (mkCase "X" "")).date = "Recent" ∧
    (enrich_case_details (mkCase "X" "")).key_points =
      ["No description available"] ∧
    (enrich_case_details (mkCase "X" "")).quality_score = 3.848 := by
  refine ⟨by decide, by decide, by decide, by decide, by decide, ?_⟩
  have hkp : (enrich_case_details (mkCase "X" "")).key_points =
      ["No description available"] := by decide
  have ht : (if (mkCase "X" "").title = "" then "Untitled Case"
      else (mkCase "X" "").title) = "X" := by decide
  have hd : (if (mkCase "X" "").description = ""
      then "No description available"
      else (mkCase "X" "").description) = "No description available" := by
    decide
  have hs : (if (mkCase "X" "").source = "" then "Source not available"
      else (mkCase "X" "").source) = "Source not available" := by decide
  have hdt : (if (mkCase "X" "").date = "" then "Recent"
      else (mkCase "X" "").date) = "Recent" := by decide
  rw [enrich_quality_score_eq, hkp, ht, hd, hs, hdt,
    calculate_score_of_complete _ _ _ _ _ _ (by decide) (by decide)
      (by decide) (by decide) (by decide)]
  have hlen : ("No description available" : String).length = 24 := by decide
  rw [hlen]
  norm_num [min_def]

/-- C3 (code bug): `process_instruction_file`'s error handler never reads
the stored retry count (`retry_count = 0  # Placeholder`), so each of three
consecutive failure-handling invocations on a fresh record writes status
`"Pending"` with `retry_count = 1` — the record never reaches `"Failed"`
and its count never passes 1 — whereas the intended state machine
(`failAttemptSpec`, per the spec and the code's own comment) produces
statuses `Pending, Pending, Failed` with counts 1, 2, 3. -/
theorem failAttempt_placeholder_divergence :
    (let r1 := failAttemptUpdate "err" freshRecord
     let r2 := failAttemptUpdate "err" r1
     let r3 := failAttemptUpdate "err" r2
     r1.status = "Pending" ∧ r1.retry_count = 1 ∧
     r2.status = "Pending" ∧ r2.retry_count = 1 ∧
     r3.status = "Pending" ∧ r3.retry_count = 1) ∧
    (let s1 := failAttemptSpec "err" freshRecord
     let s2 := failAttemptSpec "err" s1
     let s3 := failAttemptSpec "err" s2
     s1.status = "Pending" ∧ s1.retry_count = 1 ∧
     s2.status = "Pending" ∧ s2.retry_count = 2 ∧
     s3.status = "Failed" ∧ s3.retry_count = 3) := by
  decide

/-- C5: on the empty instruction text the aggregation entry point
short-circuits: whatever the injected search capability is, the result has
no cases, `total_cases = 0`, and no query is ever handed to the search
capability. -/
theorem empty_instruction_short_circuit
    (search : String → Nat → List Case) (max_results : Nat)
    (date_range category : String) :
    ManusResearchIntegrated.perform_comprehensive_research search ""
        max_results date_range category =
      ({ cases := [], total_cases := 0, research_query := "",
         category := category }, []) := by
  rfl

/-- C4 (counterexample): the direct research module's result structuring
(`_parse_research_results`) truncates `cases` to `max_results` but reports
the untruncated parsed count as `total_cases`: with two parsed cases and
`max_results = 1`, `total_cases = 2` while `cases` has length 1. -/
theorem parse_research_results_total_cases_mismatch :
    ¬ ((ManusDirectResearch.perform_comprehensive_research
          [mkCase "A" "u1", mkCase "B" "u2"] "q" 1 "" "cat").total_cases =
       (ManusDirectResearch.perform_comprehensive_research
          [mkCase "A" "u1", mkCase "B" "u2"] "q" 1 "" "cat").cases.length) := by
  decide

/-- C4 (amended): the integrated engine's `perform_comprehensive_research`
always returns `total_cases` equal to the length of `cases`; the direct
module's entry point does so exactly when the parsed case count is at most
`max_results` (in general its `total_cases` is the untruncated parsed
count). -/
theorem research_result_total_cases :
    (∀ (search : String → Nat → List Case) (text : String)
        (max_results : Nat) (date_range category : String),
      ((ManusResearchIntegrated.perform_comprehensive_research search text
          max_results date_range category).1).total_cases =
        ((ManusResearchIntegrated.perform_comprehensive_research search text
          max_results date_range category).1).cases.length) ∧
    (∀ (parsed_cases : List Case) (instruction category : String)
        (max_results : Nat), parsed_cases.length ≤ max_results →
      (ManusDirectResearch.perform_comprehensive_research parsed_cases
          instruction max_results "" category).total_cases =
        (ManusDirectResearch.perform_comprehensive_research parsed_cases
          instruction max_results "" category).cases.length) := by
  constructor
  · intro search text max_results date_range category
    unfold ManusResearchIntegrated.perform_comprehensive_research
    split <;> simp
  · intro parsed_cases instruction category max_results h
    unfold ManusDirectResearch.perform_comprehensive_research
      ManusDirectResearch.parse_research_results
    simp [List.length_take, Nat.min_eq_right h]

/-- Helper: a string of length zero is the empty string. -/
theorem string_eq_empty_of_length_eq_zero (s : String) (h : s.length = 0) :
    s = "" := by
  cases s with
  | mk data =>
    cases data with
    | nil => rfl
    | cons a as => simp [String.length] at h

/-- Helper: a structurally complete record (all four string fields
non-empty) scores strictly above 3.5 — the four presence bonuses total 3.5
and the description length bonus is strictly positive. -/
theorem calculate_score_lower (t d s dt : String) (kp : List String) (q : ℚ)
    (ht : t ≠ "") (hd : d ≠ "") (hs : s ≠ "") (hdt : dt ≠ "") :
    3.5 < calculate_case_quality_score ⟨t, d, s, dt, kp, q⟩ := by
  unfold calculate_case_quality_score
  dsimp only
  rw [if_pos ht, if_pos hd, if_pos hs, if_pos hdt]
  have hdlen : (1 : ℚ) ≤ (d.length : ℚ) := by
    have h0 : d.length ≠ 0 :=
      fun h => hd (string_eq_empty_of_length_eq_zero d h)
    exact_mod_cast Nat.one_le_iff_ne_zero.mpr h0
  have hmin : (0 : ℚ) < min ((d.length : ℚ) / 500) 2.0 := by
    apply lt_min
    · linarith
    · norm_num
  have hkp : (0 : ℚ) ≤
      (if kp ≠ [] then min ((kp.length : ℚ) * 0.3) 1.5 else 0) := by
    split
    · exact le_min (by positivity) (by norm_num)
    · norm_num
  linarith

/-- C8: for every case record, the quality score lies between 0 and 7.0:
each of the five contributions is non-negative and capped (1.0 for title,
1.0 + 2.0 for the description and its length bonus, 1.0 for source, 0.5 for
date, 1.5 for key points). -/
theorem calculate_case_quality_score_bounds (case : Case) :
    0 ≤ calculate_case_quality_score case ∧
      calculate_case_quality_score case ≤ 7.0 := by
  unfold calculate_case_quality_score
  have h1 : (0:ℚ) ≤ (if case.title ≠ "" then (1.0:ℚ) else 0) ∧
      (if case.title ≠ "" then (1.0:ℚ) else 0) ≤ 1 := by
    split <;> norm_num
  have h2 : (0:ℚ) ≤ (if case.description ≠ "" then
        1.0 + min ((case.description.length : ℚ) / 500) 2.0 else 0) ∧
      (if case.description ≠ "" then
        1.0 + min ((case.description.length : ℚ) / 500) 2.0 else 0) ≤ 3 := by
    split
    · have hl : (0:ℚ) ≤ min ((case.description.length : ℚ) / 500) 2.0 :=
        le_min (by positivity) (by norm_num)
      have hr : min ((case.description.length : ℚ) / 500) 2.0 ≤ 2.0 :=
        min_le_right _ _
      constructor <;> linarith
    · norm_num
  have h3 : (0:ℚ) ≤ (if case.source ≠ "" then (1.0:ℚ) else 0) ∧
      (if case.source ≠ "" then (1.0:ℚ) else 0) ≤ 1 := by
    split <;> norm_num
  have h4 : (0:ℚ) ≤ (if case.date ≠ "" then (0.5:ℚ) else 0) ∧
      (if case.date ≠ "" then (0.5:ℚ) else 0) ≤ 0.5 := by
    split <;> norm_num
  have h5 : (0:ℚ) ≤ (if case.key_points ≠ [] then
        min ((case.key_points.length : ℚ) * 0.3) 1.5 else 0) ∧
      (if case.key_points ≠ [] then
        min ((case.key_points.length : ℚ) * 0.3) 1.5 else 0) ≤ 1.5 := by
    split
    · exact ⟨le_min (by positivity) (by norm_num), min_le_right _ _⟩
    · norm_num
  constructor
  · linarith [h1.1, h2.1, h3.1, h4.1, h5.1]
  · linarith [h1.2, h2.2, h3.2, h4.2, h5.2]

/-- C10: every enriched case scores strictly above 3.5 — after defaulting,
title, description, source and date are all non-empty (1.0 + 1.0 + 1.0 +
0.5) and the non-empty description adds a strictly positive length bonus. -/
theorem enrich_case_details_quality_score_gt (c : Case) :
    3.5 < (enrich_case_details c).quality_score := by
  rw [enrich_quality_score_eq]
  apply calculate_score_lower
  · split
    · decide
    · assumption
  · split
    · decide
    · assumption
  · split
    · decide
    · assumption
  · split
    · decide
    · assumption

/-- C1 (counterexample): the Candidate Finding with title `"X"` and
description `"short"` enriches to a Case with an **empty** `key_points`
sequence: `key_points` is derived from the (non-empty, hence not defaulted)
description, whose only sentence fragment has length 5, outside the
(20, 200) window. -/
theorem enrich_case_details_key_points_empty_example :
    (enrich_case_details (mkCaseTD "X" "short")).key_points = [] := by
  decide

/-- C1 (amended): every enriched Case has non-empty title, description,
source and date; its `key_points` sequence is non-empty iff the input
already carried key points or the (post-default) description yields at
least one extractable fragment of length strictly between 20 and 200. -/
theorem enrich_case_details_completeness (c : Case) :
    (enrich_case_details c).title ≠ "" ∧
    (enrich_case_details c).description ≠ "" ∧
    (enrich_case_details c).source ≠ "" ∧
    (enrich_case_details c).date ≠ "" ∧
    ((enrich_case_details c).key_points ≠ [] ↔
      (c.key_points ≠ [] ∨
        extract_key_points_from_text (enrich_case_details c).description 5
          ≠ [])) := by
  have hd : (enrich_case_details c).description ≠ "" := by
    rw [enrich_description_eq]
    split
    · decide
    · assumption
  refine ⟨?_, hd, ?_, ?_, ?_⟩
  · rw [enrich_title_eq]
    split
    · decide
    · assumption
  · rw [enrich_source_eq]
    split
    · decide
    · assumption
  · rw [enrich_date_eq]
    split
    · decide
    · assumption
  · rw [enrich_key_points_eq, enrich_description_eq] at *
    by_cases hk : c.key_points = []
    · rw [if_pos hk, if_pos hd]
      simp [hk]
    · rw [if_neg hk]
      simp [hk]

/-- Rewrite lemma: `dedupeAux` keeps a head that passes the
seen-set checks. -/
theorem dedupeAux_cons_keep {a : Case} {sT sU : List String}
    (h : titleKey a.title ≠ "" ∧ titleKey a.title ∉ sT ∧ a.source ∉ sU)
    (as : List Case) :
    dedupeAux sT sU (a :: as) =
      a :: dedupeAux (titleKey a.title :: sT)
        (if a.source ≠ "" then a.source :: sU else sU) as := by
  simp only [dedupeAux]
  rw [if_pos h]

/-- Rewrite lemma: `dedupeAux` drops a head that fails the
seen-set checks. -/
theorem dedupeAux_cons_drop {a : Case} {sT sU : List String}
    (h : ¬(titleKey a.title ≠ "" ∧ titleKey a.title ∉ sT ∧ a.source ∉ sU))
    (as : List Case) :
    dedupeAux sT sU (a :: as) = dedupeAux sT sU as := by
  simp only [dedupeAux]
  rw [if_neg h]

/-- Helper: the output of the deduplication loop is a sublist of its input
(order-preserving selection). -/
theorem dedupeAux_sublist :
    ∀ (l : List Case) (sT sU : List String), List.Sublist (dedupeAux sT sU l) l := by
  intro l
  induction l with
  | nil => intro sT sU; exact List.Sublist.refl _
  | cons a as ih =>
    intro sT sU
    by_cases h : titleKey a.title ≠ "" ∧ titleKey a.title ∉ sT ∧
        a.source ∉ sU
    · rw [dedupeAux_cons_keep h]
      exact List.Sublist.cons₂ a (ih _ _)
    · rw [dedupeAux_cons_drop h]
      exact List.Sublist.cons a (ih _ _)

/-- Helper: every case kept by the deduplication loop has a non-empty
normalized title key not in the incoming seen-titles, and a source URL not
in the incoming seen-URLs. -/
theorem dedupeAux_mem :
    ∀ (l : List Case) (sT sU : List String) {c : Case},
      c ∈ dedupeAux sT sU l →
        titleKey c.title ≠ "" ∧ titleKey c.title ∉ sT ∧ c.source ∉ sU := by
  intro l
  induction l with
  | nil => intro sT sU c hc; simp [dedupeAux] at hc
  | cons a as ih =>
    intro sT sU c hc
    by_cases h : titleKey a.title ≠ "" ∧ titleKey a.title ∉ sT ∧
        a.source ∉ sU
    · rw [dedupeAux_cons_keep h] at hc
      rcases List.mem_cons.mp hc with rfl | hc'
      · exact h
      · have h3 := ih _ _ hc'
        refine ⟨h3.1, ?_, ?_⟩
        · exact fun hmem => h3.2.1 (List.mem_cons_of_mem _ hmem)
        · intro hmem
          apply h3.2.2
          by_cases hu : a.source ≠ ""
          · rw [if_pos hu]
            exact List.mem_cons_of_mem _ hmem
          · rw [if_neg hu]
            exact hmem
    · rw [dedupeAux_cons_drop h] at hc
      exact ih _ _ hc

/-- Helper: the normalized title keys of the deduplication loop's output
are pairwise distinct. -/
theorem dedupeAux_titles_nodup :
    ∀ (l : List Case) (sT sU : List String),
      ((dedupeAux sT sU l).map (fun c => titleKey c.title)).Nodup := by
  intro l
  induction l with
  | nil => intro sT sU; simp [dedupeAux]
  | cons a as ih =>
    intro sT sU
    by_cases h : titleKey a.title ≠ "" ∧ titleKey a.title ∉ sT ∧
        a.source ∉ sU
    · rw [dedupeAux_cons_keep h]
      simp only [List.map_cons, List.nodup_cons]
      refine ⟨?_, ih _ _⟩
      intro hmem
      rcases List.mem_map.mp hmem with ⟨c, hc, hkey⟩
      have h3 := dedupeAux_mem _ _ _ hc
      apply h3.2.1
      rw [hkey]
      exact List.mem_cons_self _ _
    · rw [dedupeAux_cons_drop h]
      exact ih _ _

/-- Helper: the non-empty source URLs of the deduplication loop's output
are pairwise distinct. -/
theorem dedupeAux_urls_nodup :
    ∀ (l : List Case) (sT sU : List String),
      (((dedupeAux sT sU l).map (fun c => c.source)).filter
        (fun s => s ≠ "")).Nodup := by
  intro l
  induction l with
  | nil => intro sT sU; simp [dedupeAux]
  | cons a as ih =>
    intro sT sU
    by_cases h : titleKey a.title ≠ "" ∧ titleKey a.title ∉ sT ∧
        a.source ∉ sU
    · rw [dedupeAux_cons_keep h]
      simp only [List.map_cons, List.filter_cons]
      by_cases hu : a.source ≠ ""
      · rw [if_pos (by simpa using hu)]
        rw [List.nodup_cons]
        refine ⟨?_, ih _ _⟩
        intro hmem
        rcases List.mem_filter.mp hmem with ⟨hmem', _⟩
        rcases List.mem_map.mp hmem' with ⟨c, hc, hsrc⟩
        have h3 := dedupeAux_mem _ _ _ hc
        rw [if_pos hu] at h3
        apply h3.2.2
        rw [hsrc]
        exact List.mem_cons_self _ _
      · rw [if_neg (by simpa using hu)]
        rw [if_neg hu]
        exact ih _ _
    · rw [dedupeAux_cons_drop h]
      exact ih _ _

/-- C6: `deduplicate_cases` keeps an item **iff** its normalized-title key
is non-empty and not previously seen and, when its URL is non-empty, the
URL is not previously seen, preserving first-occurrence order.  The "only
if" side: the output is a sublist of the input, every kept item has a
non-empty normalized-title key, and the kept normalized-title keys and the
kept non-empty URLs are pairwise distinct.  The "if" side: the two decision
equations (together with `dedupeAux _ _ [] = []`) state that an eligible
head — key non-empty, key unseen, URL unseen — is always kept, and an
ineligible head is dropped with the seen-sets unchanged; these equations
determine the whole output of the loop, so in particular an item with a
non-empty key at the head of the input is always in the output.  On the
three-finding scenario exactly the first and third findings are kept. -/
theorem deduplicate_cases_spec (cases : List Case) :
    List.Sublist (deduplicate_cases cases) cases ∧
    (∀ c ∈ deduplicate_cases cases, titleKey c.title ≠ "") ∧
    ((deduplicate_cases cases).map (fun c => titleKey c.title)).Nodup ∧
    (((deduplicate_cases cases).map (fun c => c.source)).filter
      (fun s => s ≠ "")).Nodup ∧
    (∀ (sT sU : List String), dedupeAux sT sU [] = []) ∧
    (∀ (a : Case) (as : List Case) (sT sU : List String),
      (titleKey a.title ≠ "" ∧ titleKey a.title ∉ sT ∧ a.source ∉ sU →
        dedupeAux sT sU (a :: as) =
          a :: dedupeAux (titleKey a.title :: sT)
            (if a.source ≠ "" then a.source :: sU else sU) as) ∧
      (¬(titleKey a.title ≠ "" ∧ titleKey a.title ∉ sT ∧ a.source ∉ sU) →
        dedupeAux sT sU (a :: as) = dedupeAux sT sU as)) ∧
    (∀ (a : Case) (as : List Case), titleKey a.title ≠ "" →
      a ∈ deduplicate_cases (a :: as)) ∧
    deduplicate_cases
        [mkCase "A Case" "u1", mkCase "a case!" "u1", mkCase "B Case" "u2"] =
      [mkCase "A Case" "u1", mkCase "B Case" "u2"] := by
  refine ⟨dedupeAux_sublist cases [] [],
    fun c hc => (dedupeAux_mem cases [] [] hc).1,
    dedupeAux_titles_nodup cases [] [],
    dedupeAux_urls_nodup cases [] [],
    fun sT sU => rfl,
    fun a as sT sU =>
      ⟨fun h => dedupeAux_cons_keep h as, fun h => dedupeAux_cons_drop h as⟩,
    ?_, by decide⟩
  intro a as hk
  have h : titleKey a.title ≠ "" ∧ titleKey a.title ∉ ([] : List String) ∧
      a.source ∉ ([] : List String) :=
    ⟨hk, List.not_mem_nil _, List.not_mem_nil _⟩
  unfold deduplicate_cases
  rw [dedupeAux_cons_keep h]
  exact List.mem_cons_self _ _

/-- C6 (witness): the specification applied at a concrete input,
discharging the membership hypothesis of the second conjunct. -/
theorem deduplicate_cases_spec_witness :
    mkCase "A Case" "u1" ∈ deduplicate_cases [mkCase "A Case" "u1"] ∧
    titleKey (mkCase "A Case" "u1").title ≠ "" :=
  ⟨by decide,
   (deduplicate_cases_spec [mkCase "A Case" "u1"]).2.1
     (mkCase "A Case" "u1") (by decide)⟩

/-- C9: `deduplicate_cases` is idempotent — re-running the loop on its own
output (with the same incoming seen-sets) keeps every item again, since
each kept item passed the very same checks the first time. -/
theorem deduplicate_cases_idempotent (X : List Case) :
    deduplicate_cases (deduplicate_cases X) = deduplicate_cases X := by
  have aux : ∀ (l : List Case) (sT sU : List String),
      dedupeAux sT sU (dedupeAux sT sU l) = dedupeAux sT sU l := by
    intro l
    induction l with
    | nil => intro sT sU; rfl
    | cons a as ih =>
      intro sT sU
      by_cases h : titleKey a.title ≠ "" ∧ titleKey a.title ∉ sT ∧
          a.source ∉ sU
      · rw [dedupeAux_cons_keep h, dedupeAux_cons_keep h, ih]
      · rw [dedupeAux_cons_drop h, ih]
  exact aux X [] []

/-- C4 (witness): the amended statement applied at a concrete input with
its hypothesis discharged. -/
theorem research_result_total_cases_witness :
    ([mkCase "A" "u1"] : List Case).length ≤ 3 ∧
    (ManusDirectResearch.perform_comprehensive_research [mkCase "A" "u1"]
        "q" 3 "" "cat").total_cases =
      (ManusDirectResearch.perform_comprehensive_research [mkCase "A" "u1"]
        "q" 3 "" "cat").cases.length :=
  ⟨by decide,
   research_result_total_cases.2 [mkCase "A" "u1"] "q" "cat" 3 (by decide)⟩

/-- C7: `rank_and_select_cases` returns at most `limit` items; the sorted
intermediate list is ordered by `rankBefore` (descending quality score,
ties broken by ascending original index, i.e. a stable descending sort) and
is a permutation of the index-tagged input; and the `cases` sequence of any
aggregation result has length at most the requested `max_results` (for
`max_results ≥ 1`). -/
theorem rank_and_select_cases_spec (cases : List Case) (limit : Nat)
    (search : String → Nat → List Case) (text date_range category : String)
    (max_results : Nat) (hmax : 1 ≤ max_results) :
    (rank_and_select_cases cases limit).length ≤ limit ∧
    (rankedIndexed cases).Sorted rankBefore ∧
    List.Perm (rankedIndexed cases) cases.enum ∧
    ((ManusResearchIntegrated.perform_comprehensive_research search text
        max_results date_range category).1).cases.length ≤ max_results := by
  refine ⟨?_, List.sorted_insertionSort _ _, List.perm_insertionSort _ _, ?_⟩
  · unfold rank_and_select_cases
    exact List.length_take_le _ _
  · unfold ManusResearchIntegrated.perform_comprehensive_research
    split
    · simp
    · dsimp only
      rw [List.length_map]
      unfold rank_and_select_cases
      exact le_trans (List.length_take_le _ _) (le_refl _)

/-- C7 (witness): the specification applied at a concrete input with the
`max_results ≥ 1` hypothesis discharged. -/
theorem rank_and_select_cases_spec_witness :
    (1 : Nat) ≤ 1 ∧
    ((rank_and_select_cases [] 0).length ≤ 0 ∧
      (rankedIndexed []).Sorted rankBefore ∧
      List.Perm (rankedIndexed []) ([] : List Case).enum ∧
      ((ManusResearchIntegrated.perform_comprehensive_research
          (fun _ _ => []) "q" 1 "" "").1).cases.length ≤ 1) :=
  ⟨Nat.le_refl 1,
   rank_and_select_cases_spec [] 0 (fun _ _ => []) "q" "" "" 1 (Nat.le_refl 1)⟩
